import Mathlib

/-!
Shallow embedding of the `writecolor` crate (src/lib.rs): the `Color`,
`StyleSpec` and `Style` value types, the additive merge (`Add`/`AddAssign`),
the ANSI escape rendering (`write_to`), the difference engine
(`Difference::between`, `write_difference`) and the spec-builder traits
(`Extend`, `FromIterator`). Machine strings are Lean `String`s; the output
sink is modelled by the concatenation of the fragments written to it, and
the process environment by an explicit `Env` value.
-/

namespace Writecolor

/-- `Color` (src/lib.rs lines 29-53): 8 named base colors, an ANSI-256
palette index, or a 24-bit RGB triple. The hidden `__Nonexhaustive` marker
variant, which `write_to` treats as unreachable, is not modelled. -/
inductive Color where
  | Red
  | Green
  | Yellow
  | Blue
  | Magenta
  | Cyan
  | White
  | Black
  | Fixed (n : Fin 256)
  | Rgb (r g b : Fin 256)
  deriving DecidableEq

/-- `StyleSpec` (src/lib.rs lines 148-166): a single attribute-setting
instruction used to build a `Style`. -/
inductive StyleSpec where
  | Reset
  | Bold
  | Underline
  | Italic
  | Intense
  | Fg (c : Color)
  | Bg (c : Color)
  | Number (n : Fin 256)
  deriving DecidableEq

/-- `Style` (src/lib.rs lines 169-182): optional foreground and background
colors plus nine independent boolean flags. -/
structure Style where
  fg : Option Color := none
  bg : Option Color := none
  bold : Bool := false
  dimmed : Bool := false
  italic : Bool := false
  underline : Bool := false
  blink : Bool := false
  reverse : Bool := false
  hidden : Bool := false
  strikethrough : Bool := false
  intense : Bool := false
  deriving DecidableEq

/-- `Style::default()`: every flag false, both colors unset. -/
def Style.default : Style := {}

/-- `impl Add for Style` (src/lib.rs lines 184-202): field-wise additive
merge, `with` (the right operand) overriding colors and flags OR-ed. -/
def Style.add (self other : Style) : Style where
  fg := other.fg.or self.fg
  bg := other.bg.or self.bg
  bold := other.bold || self.bold
  dimmed := other.dimmed || self.dimmed
  italic := other.italic || self.italic
  underline := other.underline || self.underline
  blink := other.blink || self.blink
  reverse := other.reverse || self.reverse
  hidden := other.hidden || self.hidden
  strikethrough := other.strikethrough || self.strikethrough
  intense := other.intense || self.intense

/-- `impl AddAssign for Style` (src/lib.rs lines 204-223): like `add`,
except that a default right operand resets the whole style. -/
def Style.add_assign (self other : Style) : Style :=
  if other = Style.default then Style.default
  else
    { fg := other.fg.or self.fg
      bg := other.bg.or self.bg
      bold := other.bold || self.bold
      dimmed := other.dimmed || self.dimmed
      italic := other.italic || self.italic
      underline := other.underline || self.underline
      blink := other.blink || self.blink
      reverse := other.reverse || self.reverse
      hidden := other.hidden || self.hidden
      strikethrough := other.strikethrough || self.strikethrough
      intense := other.intense || self.intense }

/-- `Style::add_spec` (src/lib.rs lines 293-305). -/
def Style.add_spec (self : Style) : StyleSpec → Style
  | .Fg c => { self with fg := some c }
  | .Bg c => { self with bg := some c }
  | .Bold => { self with bold := true }
  | .Italic => { self with italic := true }
  | .Intense => { self with intense := true }
  | .Underline => { self with underline := true }
  | .Reset => Style.default
  | .Number _ => self

/-- `Style::remove` (src/lib.rs lines 308-319). -/
def Style.remove (self : Style) : StyleSpec → Style
  | .Fg _ => { self with fg := none }
  | .Bg _ => { self with bg := none }
  | .Bold => { self with bold := false }
  | .Italic => { self with italic := false }
  | .Intense => { self with intense := false }
  | .Underline => { self with underline := false }
  | .Reset => self
  | .Number _ => self

/-- `impl From<StyleSpec> for Style` (src/lib.rs lines 225-230). -/
def Style.fromSpec (s : StyleSpec) : Style := Style.default.add_spec s

/-- `Style::from_fg` (src/lib.rs lines 246-248). -/
def Style.from_fg (c : Color) : Style := Style.fromSpec (StyleSpec.Fg c)

/-- `Style::from_bg` (src/lib.rs lines 257-259). -/
def Style.from_bg (c : Color) : Style := Style.fromSpec (StyleSpec.Bg c)

/-- The two environment variables consulted by `env_allows_color`. -/
structure Env where
  term : Option String
  no_color : Option String

/-- `env_allows_color` (src/lib.rs lines 323-338): color is allowed when
`TERM` is set to something other than `"dumb"` and `NO_COLOR` is unset. -/
def env_allows_color (e : Env) : Bool :=
  match e.term with
  | none => false
  | some v =>
    if v = "dumb" then false
    else if e.no_color.isSome then false
    else true

/-- A concrete environment with color enabled, used to instantiate
hypotheses at concrete inputs. -/
def envXterm : Env := ⟨some "xterm", none⟩

/-- The foreground color fragment written by `write_to`
(src/lib.rs lines 377-407). -/
def fgEscape (intense : Bool) (c : Color) : String :=
  if intense then
    match c with
    | .Black => "\x1b[38;5;8m"
    | .Red => "\x1b[38;5;9m"
    | .Green => "\x1b[38;5;10m"
    | .Yellow => "\x1b[38;5;11m"
    | .Blue => "\x1b[38;5;12m"
    | .Magenta => "\x1b[38;5;13m"
    | .Cyan => "\x1b[38;5;14m"
    | .White => "\x1b[38;5;15m"
    | .Fixed n => "\x1b[38;5;" ++ toString n.val ++ "m"
    | .Rgb r g b =>
        "\x1b[38;2;" ++ toString r.val ++ ";" ++ toString g.val ++ ";" ++
          toString b.val ++ "m"
  else
    match c with
    | .Black => "\x1b[30m"
    | .Red => "\x1b[31m"
    | .Green => "\x1b[32m"
    | .Yellow => "\x1b[33m"
    | .Blue => "\x1b[34m"
    | .Magenta => "\x1b[35m"
    | .Cyan => "\x1b[36m"
    | .White => "\x1b[37m"
    | .Fixed n => "\x1b[38;5;" ++ toString n.val ++ "m"
    | .Rgb r g b =>
        "\x1b[38;2;" ++ toString r.val ++ ";" ++ toString g.val ++ ";" ++
          toString b.val ++ "m"

/-- The background color fragment written by `write_to`
(src/lib.rs lines 408-438). -/
def bgEscape (intense : Bool) (c : Color) : String :=
  if intense then
    match c with
    | .Black => "\x1b[48;5;8m"
    | .Red => "\x1b[48;5;9m"
    | .Green => "\x1b[48;5;10m"
    | .Yellow => "\x1b[48;5;11m"
    | .Blue => "\x1b[48;5;12m"
    | .Magenta => "\x1b[48;5;13m"
    | .Cyan => "\x1b[48;5;14m"
    | .White => "\x1b[48;5;15m"
    | .Fixed n => "\x1b[48;5;" ++ toString n.val ++ "m"
    | .Rgb r g b =>
        "\x1b[48;2;" ++ toString r.val ++ ";" ++ toString g.val ++ ";" ++
          toString b.val ++ "m"
  else
    match c with
    | .Black => "\x1b[40m"
    | .Red => "\x1b[41m"
    | .Green => "\x1b[42m"
    | .Yellow => "\x1b[43m"
    | .Blue => "\x1b[44m"
    | .Magenta => "\x1b[45m"
    | .Cyan => "\x1b[46m"
    | .White => "\x1b[47m"
    | .Fixed n => "\x1b[48;5;" ++ toString n.val ++ "m"
    | .Rgb r g b =>
        "\x1b[48;2;" ++ toString r.val ++ ";" ++ toString g.val ++ ";" ++
          toString b.val ++ "m"

/-- The flag fragments written by `write_to`, in source order
(src/lib.rs lines 353-376): one complete escape per true flag. -/
def Style.flagFrags (s : Style) : List String :=
  (if s.bold then ["\x1b[1m"] else []) ++
  (if s.dimmed then ["\x1b[2m"] else []) ++
  (if s.italic then ["\x1b[3m"] else []) ++
  (if s.underline then ["\x1b[4m"] else []) ++
  (if s.blink then ["\x1b[5m"] else []) ++
  (if s.reverse then ["\x1b[7m"] else []) ++
  (if s.hidden then ["\x1b[8m"] else []) ++
  (if s.strikethrough then ["\x1b[9m"] else [])

/-- The foreground fragments written by `write_to`: one fragment when
`fg` is set, none otherwise (src/lib.rs lines 377-407). -/
def Style.fgFrags (s : Style) : List String :=
  match s.fg with
  | none => []
  | some c => [fgEscape s.intense c]

/-- The background fragments written by `write_to` (src/lib.rs
lines 408-438). -/
def Style.bgFrags (s : Style) : List String :=
  match s.bg with
  | none => []
  | some c => [bgEscape s.intense c]

/-- The ordered list of fragments `write_to` writes when color is enabled
(src/lib.rs lines 352-441): flags, then foreground, then background for a
non-default style; exactly the reset escape for the default style. -/
def Style.fragments (s : Style) : List String :=
  if s ≠ Style.default then s.flagFrags ++ s.fgFrags ++ s.bgFrags
  else ["\x1b[0m"]

/-- Sequential `write!` calls: the concatenation of the fragments, in
order, as received by the sink. -/
def concatFrags : List String → String
  | [] => ""
  | f :: fs => f ++ concatFrags fs

/-- `write_to` (src/lib.rs lines 348-443): the total bytes written to the
sink. Writes nothing when the environment disables color. -/
def Style.write_to (s : Style) (e : Env) : String :=
  if !env_allows_color e then ""
  else concatFrags s.fragments

/-- `Difference` (src/lib.rs lines 481-488). -/
inductive Difference where
  | None
  | Add (s : Style)
  | Reset
  deriving DecidableEq

/-- `Difference::between` (src/lib.rs lines 492-520). -/
def Difference.between (prev next : Style) : Difference :=
  if prev = next then Difference.None
  else if (prev.fg.isSome && next.fg.isNone)
      || (prev.bg.isSome && next.bg.isNone)
      || (prev.bold && !next.bold)
      || (prev.italic && !next.italic)
      || (prev.underline && !next.underline)
      || (prev.intense && !next.intense) then Difference.Reset
  else Difference.Add
    { fg := if next.fg ≠ prev.fg then next.fg else none
      bg := if next.bg ≠ prev.bg then next.bg else none
      bold := !prev.bold && next.bold
      dimmed := !prev.dimmed && next.dimmed
      italic := !prev.italic && next.italic
      underline := !prev.underline && next.underline
      blink := !prev.blink && next.blink
      reverse := !prev.reverse && next.reverse
      hidden := !prev.hidden && next.hidden
      strikethrough := !prev.strikethrough && next.strikethrough
      intense := !prev.intense && next.intense }

/-- `write_difference` (src/lib.rs lines 446-459): the total bytes written
for the transition from `prev` to `self`. -/
def Style.write_difference (self : Style) (e : Env) (prev : Style) : String :=
  if !env_allows_color e then ""
  else
    match Difference.between prev self with
    | Difference.Add st => st.write_to e
    | Difference.Reset => "\x1b[0m" ++ self.write_to e
    | Difference.None => ""

/-- `impl Extend<&StyleSpec> for Style` (src/lib.rs lines 462-468): the
for-loop applying `add_spec` for each spec in order. -/
def Style.extend (self : Style) : List StyleSpec → Style
  | [] => self
  | sp :: rest => (self.add_spec sp).extend rest

/-- `impl FromIterator<&StyleSpec> for Style` (src/lib.rs lines 470-478):
start from the default style and `add_spec` each spec in order. -/
def Style.from_iter (specs : List StyleSpec) : Style :=
  Style.default.extend specs

/-! ### Helper lemmas -/

lemma concatFrags_append (a b : List String) :
    concatFrags (a ++ b) = concatFrags a ++ concatFrags b := by
  induction a with
  | nil => simp [concatFrags, String.empty_append]
  | cons f fs ih => simp [concatFrags, ih, String.append_assoc]

lemma string_eq_empty_of_length (s : String) (h : s.length = 0) : s = "" := by
  cases s with
  | mk d =>
    cases d with
    | nil => rfl
    | cons x xs => simp [String.length] at h

lemma string_append_eq_empty {a b : String} (h : a ++ b = "") :
    a = "" ∧ b = "" := by
  have hl := congrArg String.length h
  rw [String.length_append] at hl
  have h0 : ("" : String).length = 0 := rfl
  rw [h0] at hl
  have ha : a.length = 0 := by omega
  have hb : b.length = 0 := by omega
  exact ⟨string_eq_empty_of_length a ha, string_eq_empty_of_length b hb⟩

lemma extend_eq_foldl (s : Style) (specs : List StyleSpec) :
    s.extend specs = specs.foldl Style.add_spec s := by
  induction specs generalizing s with
  | nil => rfl
  | cons sp rest ih => simp [Style.extend, List.foldl, ih]

/-! ### Claims -/

/-- C10: `add_spec` with a `Number` spec leaves the style entirely
unchanged, and `remove` with a `Number` or `Reset` spec likewise leaves the
style unchanged. -/
theorem c10_number_reset_noop :
    ∀ (s : Style) (n : Fin 256),
      s.add_spec (StyleSpec.Number n) = s ∧
      s.remove (StyleSpec.Number n) = s ∧
      s.remove StyleSpec.Reset = s := by
  intro s n
  exact ⟨rfl, rfl, rfl⟩

/-- C9: building a `Style` from a sequence of specs via `FromIterator` or
`Extend` equals a left fold of `add_spec`, starting from the default style
for `FromIterator` (and from the extended style for `Extend`); a `Reset`
spec anywhere discards the effect of all prior specs while later specs
still apply. -/
theorem c9_fold_specs :
    (∀ specs : List StyleSpec,
        Style.from_iter specs = specs.foldl Style.add_spec Style.default) ∧
    (∀ (s : Style) (specs : List StyleSpec),
        s.extend specs = specs.foldl Style.add_spec s) ∧
    (∀ pre post : List StyleSpec,
        Style.from_iter (pre ++ StyleSpec.Reset :: post) =
          Style.from_iter post) := by
  refine ⟨fun specs => extend_eq_foldl _ specs, extend_eq_foldl, ?_⟩
  intro pre post
  show Style.default.extend (pre ++ StyleSpec.Reset :: post) = _
  rw [extend_eq_foldl, List.foldl_append, List.foldl_cons]
  show List.foldl Style.add_spec Style.default post = _
  rw [Style.from_iter, extend_eq_foldl]

/-- C3 counterexample: the `Add` operator does not special-case a default
right operand, so merging a bold style with the default style returns the
bold style, not the default style. -/
theorem c3_counterexample :
    Style.add { Style.default with bold := true } Style.default ≠
      Style.default := by decide

/-- C3 (amended): merging default into `S` yields `S` for the operator
form (`S + default = S`) but yields the default style for the in-place
form (`S += default`); merging `S` into default yields `S` for both
forms. -/
theorem c3_merge_default :
    ∀ s : Style,
      Style.add s Style.default = s ∧
      Style.add Style.default s = s ∧
      Style.add_assign s Style.default = Style.default ∧
      Style.add_assign Style.default s = s := by
  intro s
  refine ⟨?_, ?_, ?_, ?_⟩
  · cases s
    simp [Style.add, Style.default]
  · cases s
    simp [Style.add, Style.default]
  · simp [Style.add_assign]
  · by_cases h : s = Style.default
    · simp [Style.add_assign, h]
    · rw [Style.add_assign, if_neg h]
      cases s
      simp [Style.default]

/-- C7: when `next` has every attribute `prev` has (colors set wherever
`prev` sets one, every flag true wherever `prev` has it true),
`Difference::between` never returns `Reset`; and for identical styles it
returns `None`. -/
theorem c7_superset_never_reset :
    (∀ prev next : Style,
        (prev.fg.isSome → next.fg.isSome) →
        (prev.bg.isSome → next.bg.isSome) →
        (prev.bold → next.bold) →
        (prev.dimmed → next.dimmed) →
        (prev.italic → next.italic) →
        (prev.underline → next.underline) →
        (prev.blink → next.blink) →
        (prev.reverse → next.reverse) →
        (prev.hidden → next.hidden) →
        (prev.strikethrough → next.strikethrough) →
        (prev.intense → next.intense) →
        Difference.between prev next ≠ Difference.Reset) ∧
    (∀ s : Style, Difference.between s s = Difference.None) := by
  constructor
  · intro prev next hfg hbg hb hd hi hu hbl hr hh hs hin
    unfold Difference.between
    split
    · simp
    · split
      · rename_i hcond
        exfalso
        simp only [Bool.or_eq_true, Bool.and_eq_true, Bool.not_eq_true'] at hcond
        rcases hcond with ((((⟨h1, h2⟩ | ⟨h1, h2⟩) | ⟨h1, h2⟩) | ⟨h1, h2⟩) |
          ⟨h1, h2⟩) | ⟨h1, h2⟩ <;> simp_all
      · simp
  · intro s
    simp [Difference.between]

/-- Witness for C7 at concrete styles. -/
theorem c7_witness :
    Difference.between Style.default (Style.from_fg Color.Red) ≠
        Difference.Reset ∧
    Difference.between (Style.from_fg Color.Red) (Style.from_fg Color.Red) =
        Difference.None :=
  ⟨c7_superset_never_reset.1 Style.default (Style.from_fg Color.Red)
      (by decide) (by decide) (by decide) (by decide) (by decide) (by decide)
      (by decide) (by decide) (by decide) (by decide) (by decide),
    c7_superset_never_reset.2 (Style.from_fg Color.Red)⟩

/-- C6: when `between` returns `Add(delta)` for distinct styles, `delta`
carries a color only where `next` differs from `prev` (unset when
unchanged) and a flag is true exactly when it is newly turned on: false in
`prev` and true in `next`. -/
theorem c6_add_delta_fields :
    ∀ prev next delta : Style, prev ≠ next →
      Difference.between prev next = Difference.Add delta →
      (delta.fg = if next.fg = prev.fg then none else next.fg) ∧
      (delta.bg = if next.bg = prev.bg then none else next.bg) ∧
      (delta.bold = true ↔ prev.bold = false ∧ next.bold = true) ∧
      (delta.dimmed = true ↔ prev.dimmed = false ∧ next.dimmed = true) ∧
      (delta.italic = true ↔ prev.italic = false ∧ next.italic = true) ∧
      (delta.underline = true ↔
        prev.underline = false ∧ next.underline = true) ∧
      (delta.blink = true ↔ prev.blink = false ∧ next.blink = true) ∧
      (delta.reverse = true ↔ prev.reverse = false ∧ next.reverse = true) ∧
      (delta.hidden = true ↔ prev.hidden = false ∧ next.hidden = true) ∧
      (delta.strikethrough = true ↔
        prev.strikethrough = false ∧ next.strikethrough = true) ∧
      (delta.intense = true ↔ prev.intense = false ∧ next.intense = true) := by
  intro prev next delta hne h
  unfold Difference.between at h
  rw [if_neg hne] at h
  split at h
  · exact absurd h (by simp)
  · injection h with h
    subst h
    refine ⟨by simp [ite_not], by simp [ite_not], ?_, ?_, ?_, ?_, ?_, ?_, ?_,
      ?_, ?_⟩ <;>
      simp [Bool.and_eq_true, Bool.not_eq_true']

/-- Witness for C6 at concrete styles: the delta of the transition from
default to red foreground carries the foreground. -/
theorem c6_witness :
    (Style.from_fg Color.Red).fg =
      if (Style.from_fg Color.Red).fg = Style.default.fg then none
      else (Style.from_fg Color.Red).fg :=
  (c6_add_delta_fields Style.default (Style.from_fg Color.Red)
    (Style.from_fg Color.Red) (by decide) (by decide)).1

/-- C2 counterexample: `dimmed` is present in `prev` and absent in `next`,
yet `between` does not return `Reset` (the source checks only fg, bg,
bold, italic, underline and intense). -/
theorem c2_counterexample :
    ({ Style.default with dimmed := true } : Style).dimmed = true ∧
    Style.default.dimmed = false ∧
    Difference.between { Style.default with dimmed := true } Style.default ≠
      Difference.Reset := by decide

/-- C2 (amended): `between` returns `Reset` whenever a color field set in
`prev` is unset in `next`, or one of the four flags bold, italic,
underline, intense is true in `prev` and false in `next`; the flags
dimmed, blink, reverse, hidden and strikethrough do not trigger `Reset`. -/
theorem c2_downgrade_reset :
    ∀ prev next : Style,
      ((prev.fg.isSome ∧ next.fg = none) ∨
       (prev.bg.isSome ∧ next.bg = none) ∨
       (prev.bold = true ∧ next.bold = false) ∨
       (prev.italic = true ∧ next.italic = false) ∨
       (prev.underline = true ∧ next.underline = false) ∨
       (prev.intense = true ∧ next.intense = false)) →
      Difference.between prev next = Difference.Reset := by
  intro prev next h
  have hne : prev ≠ next := by
    rintro rfl
    rcases h with ⟨h1, h2⟩ | ⟨h1, h2⟩ | ⟨h1, h2⟩ | ⟨h1, h2⟩ | ⟨h1, h2⟩ |
      ⟨h1, h2⟩ <;> simp_all
  unfold Difference.between
  rw [if_neg hne, if_pos]
  rcases h with ⟨h1, h2⟩ | ⟨h1, h2⟩ | ⟨h1, h2⟩ | ⟨h1, h2⟩ | ⟨h1, h2⟩ |
    ⟨h1, h2⟩ <;> simp [h1, h2]

/-- Witness for C2 at a concrete downgrade: blue foreground to default. -/
theorem c2_witness :
    Difference.between (Style.from_fg Color.Blue) Style.default =
      Difference.Reset :=
  c2_downgrade_reset (Style.from_fg Color.Blue) Style.default
    (Or.inl ⟨by decide, by decide⟩)

/-- C1 counterexample: with color enabled, the transition from blue
foreground to the default style writes the reset escape twice, not the
single 4-byte reset the claim states. -/
theorem c1_counterexample :
    Style.write_difference Style.default envXterm (Style.from_fg Color.Blue) ≠
      "\x1b[0m" := by decide

/-- C1 (amended): with color enabled, `write_difference` from a blue
foreground to the default style writes the reset escape twice (8 bytes):
the `Reset` branch writes one reset and then re-renders the default
`next`, which itself renders as the reset escape. -/
theorem c1_blue_to_default :
    ∀ e : Env, env_allows_color e = true →
      Style.write_difference Style.default e (Style.from_fg Color.Blue) =
        "\x1b[0m\x1b[0m" := by
  intro e he
  have hb : Difference.between (Style.from_fg Color.Blue) Style.default =
      Difference.Reset := by decide
  rw [Style.write_difference, he]
  simp only [Bool.not_true, Bool.false_eq_true, if_false, hb]
  rw [Style.write_to, he]
  decide

/-- Witness for C1 at a concrete color-enabled environment. -/
theorem c1_witness :
    env_allows_color envXterm = true ∧
    Style.write_difference Style.default envXterm (Style.from_fg Color.Blue) =
      "\x1b[0m\x1b[0m" :=
  ⟨by decide, c1_blue_to_default envXterm (by decide)⟩

/-- The spec's bright-color index for the named base colors (the
256-color substitution used when `intense` is set): Black=8, Red=9,
Green=10, Yellow=11, Blue=12, Magenta=13, Cyan=14, White=15. Written from
the claim's words, to be compared with the source's `fgEscape`. -/
def brightIndex : Color → Option Nat
  | .Black => some 8
  | .Red => some 9
  | .Green => some 10
  | .Yellow => some 11
  | .Blue => some 12
  | .Magenta => some 13
  | .Cyan => some 14
  | .White => some 15
  | _ => none

/-- The spec's direct SGR foreground code 30-37 for the named base
colors. Written from the claim's words. -/
def directFgCode : Color → Option Nat
  | .Black => some 30
  | .Red => some 31
  | .Green => some 32
  | .Yellow => some 33
  | .Blue => some 34
  | .Magenta => some 35
  | .Cyan => some 36
  | .White => some 37
  | _ => none

/-- The foreground encoding as the claim words it: named colors go through
the bright index under `intense` and the direct 30-37 code otherwise; a
palette index uses `ESC[38;5;p m` and an RGB triple `ESC[38;2;r;g;b m`
regardless of `intense`. -/
def specFgEncoding (intense : Bool) (c : Color) : String :=
  match c with
  | .Fixed p => "\x1b[38;5;" ++ toString p.val ++ "m"
  | .Rgb r g b =>
      "\x1b[38;2;" ++ toString r.val ++ ";" ++ toString g.val ++ ";" ++
        toString b.val ++ "m"
  | _ =>
    if intense then
      "\x1b[38;5;" ++ toString ((brightIndex c).getD 0) ++ "m"
    else
      "\x1b[" ++ toString ((directFgCode c).getD 0) ++ "m"

/-- C5: with color enabled, the foreground fragment `write_to` emits is
exactly the encoding the claim describes, placed between the flag
fragments and the background fragments. -/
theorem c5_fg_encoding :
    ∀ (e : Env) (s : Style) (c : Color),
      env_allows_color e = true → s ≠ Style.default → s.fg = some c →
      s.write_to e =
        concatFrags s.flagFrags ++ specFgEncoding s.intense c ++
          concatFrags s.bgFrags := by
  intro e s c he hd hfg
  have henc : fgEscape s.intense c = specFgEncoding s.intense c := by
    cases s.intense <;> cases c <;> rfl
  rw [Style.write_to, he]
  simp only [Bool.not_true, Bool.false_eq_true, if_false]
  rw [Style.fragments, if_pos hd]
  have hfgf : concatFrags s.fgFrags = specFgEncoding s.intense c := by
    simp [Style.fgFrags, hfg, concatFrags, String.append_empty, henc]
  rw [concatFrags_append, concatFrags_append, hfgf]

/-- Witness for C5 at a concrete style: blue foreground, no flags. -/
theorem c5_witness :
    (Style.from_fg Color.Blue).write_to envXterm =
      concatFrags (Style.from_fg Color.Blue).flagFrags ++
        specFgEncoding (Style.from_fg Color.Blue).intense Color.Blue ++
        concatFrags (Style.from_fg Color.Blue).bgFrags :=
  c5_fg_encoding envXterm (Style.from_fg Color.Blue) Color.Blue (by decide)
    (by decide) (by decide)

/-- The flag fragments as the claim words them: one complete escape
`ESC[<code>m` per true flag, in the fixed order bold(1), dim(2),
italic(3), underline(4), blink(5), reverse(7), hidden(8),
strikethrough(9). Written from the claim's words, to be compared with the
source's `flagFrags`. -/
def specFlagFrags (s : Style) : List String :=
  ([("1", s.bold), ("2", s.dimmed), ("3", s.italic), ("4", s.underline),
      ("5", s.blink), ("7", s.reverse), ("8", s.hidden),
      ("9", s.strikethrough)].filter (fun p => p.2)).map
    (fun p => "\x1b[" ++ p.1 ++ "m")

/-- C8: with color enabled, a non-default style renders as one complete
escape per true flag in the fixed order 1,2,3,4,5,7,8,9, each its own
fragment, with all flag fragments preceding the foreground and background
color fragments. -/
theorem c8_flag_order :
    ∀ (e : Env) (s : Style),
      env_allows_color e = true → s ≠ Style.default →
      s.fragments = specFlagFrags s ++ s.fgFrags ++ s.bgFrags ∧
      s.write_to e =
        concatFrags (specFlagFrags s ++ s.fgFrags ++ s.bgFrags) := by
  intro e s he hd
  have hflag : s.flagFrags = specFlagFrags s := by
    rcases s with ⟨fg, bg, b1, b2, b3, b4, b5, b6, b7, b8, b9⟩
    cases b1 <;> cases b2 <;> cases b3 <;> cases b4 <;> cases b5 <;>
      cases b6 <;> cases b7 <;> cases b8 <;> rfl
  constructor
  · rw [Style.fragments, if_pos hd, hflag]
  · rw [Style.write_to, he]
    simp only [Bool.not_true, Bool.false_eq_true, if_false]
    rw [Style.fragments, if_pos hd, hflag]

/-- Witness for C8 at a concrete style: bold with a white background. -/
theorem c8_witness :
    ({ Style.from_bg Color.White with bold := true } : Style).write_to
        envXterm =
      concatFrags
        (specFlagFrags { Style.from_bg Color.White with bold := true } ++
          Style.fgFrags { Style.from_bg Color.White with bold := true } ++
          Style.bgFrags { Style.from_bg Color.White with bold := true }) :=
  (c8_flag_order envXterm { Style.from_bg Color.White with bold := true }
    (by decide) (by decide)).2

lemma fgEscape_ne_empty (i : Bool) (c : Color) : fgEscape i c ≠ "" := by
  cases i <;> cases c <;>
    first
      | decide
      | (intro h; exact absurd (string_append_eq_empty h).2 (by decide))

lemma bgEscape_ne_empty (i : Bool) (c : Color) : bgEscape i c ≠ "" := by
  cases i <;> cases c <;>
    first
      | decide
      | (intro h; exact absurd (string_append_eq_empty h).2 (by decide))

lemma concatFlagList_empty (b1 b2 b3 b4 b5 b6 b7 b8 : Bool)
    (h : concatFrags
        ((if b1 then ["\x1b[1m"] else []) ++
         (if b2 then ["\x1b[2m"] else []) ++
         (if b3 then ["\x1b[3m"] else []) ++
         (if b4 then ["\x1b[4m"] else []) ++
         (if b5 then ["\x1b[5m"] else []) ++
         (if b6 then ["\x1b[7m"] else []) ++
         (if b7 then ["\x1b[8m"] else []) ++
         (if b8 then ["\x1b[9m"] else [])) = "") :
    b1 = false ∧ b2 = false ∧ b3 = false ∧ b4 = false ∧ b5 = false ∧
    b6 = false ∧ b7 = false ∧ b8 = false := by
  revert h
  cases b1 <;> cases b2 <;> cases b3 <;> cases b4 <;> cases b5 <;>
    cases b6 <;> cases b7 <;> cases b8 <;> decide

lemma flags_false_of_concat_empty (s : Style)
    (h : concatFrags s.flagFrags = "") :
    s.bold = false ∧ s.dimmed = false ∧ s.italic = false ∧
    s.underline = false ∧ s.blink = false ∧ s.reverse = false ∧
    s.hidden = false ∧ s.strikethrough = false := by
  exact concatFlagList_empty s.bold s.dimmed s.italic s.underline s.blink
    s.reverse s.hidden s.strikethrough h

/-- C4 counterexample: the style whose only set attribute is `intense` is
not the default style, yet `write_to` writes zero bytes for it. -/
theorem c4_counterexample :
    ({ Style.default with intense := true } : Style) ≠ Style.default ∧
    ({ Style.default with intense := true } : Style).write_to envXterm =
      "" := by decide

/-- C4 (amended): with color enabled, every non-default style other than
the intense-only style writes at least one byte; the intense-only style
(all flags false except `intense`, both colors unset) is the one
non-default style that writes zero bytes. -/
theorem c4_nondefault_writes :
    (∀ (e : Env) (s : Style),
        env_allows_color e = true → s ≠ Style.default →
        s ≠ { Style.default with intense := true } →
        s.write_to e ≠ "") ∧
    (∀ e : Env,
        ({ Style.default with intense := true } : Style).write_to e = "") := by
  constructor
  · intro e s he hd hio hc
    rw [Style.write_to, he] at hc
    simp only [Bool.not_true, Bool.false_eq_true, if_false] at hc
    rw [Style.fragments, if_pos hd, concatFrags_append,
      concatFrags_append] at hc
    obtain ⟨h12, hbg⟩ := string_append_eq_empty hc
    obtain ⟨hflag, hfg⟩ := string_append_eq_empty h12
    have hfgn : s.fg = none := by
      cases hfg2 : s.fg with
      | none => rfl
      | some c =>
        rw [Style.fgFrags, hfg2] at hfg
        simp only [concatFrags, String.append_empty] at hfg
        exact absurd hfg (fgEscape_ne_empty s.intense c)
    have hbgn : s.bg = none := by
      cases hbg2 : s.bg with
      | none => rfl
      | some c =>
        rw [Style.bgFrags, hbg2] at hbg
        simp only [concatFrags, String.append_empty] at hbg
        exact absurd hbg (bgEscape_ne_empty s.intense c)
    obtain ⟨f1, f2, f3, f4, f5, f6, f7, f8⟩ :=
      flags_false_of_concat_empty s hflag
    have hs : s = { Style.default with intense := s.intense } := by
      rcases s with ⟨fg, bg, b1, b2, b3, b4, b5, b6, b7, b8, b9⟩
      simp_all [Style.default]
    cases hi : s.intense with
    | false => exact hd (by rw [hs, hi]; decide)
    | true => exact hio (by rw [hs, hi])
  · intro e
    rw [Style.write_to]
    split
    · rfl
    · decide

/-- Witness for C4 at a concrete non-default style and environment. -/
theorem c4_witness :
    (Style.from_fg Color.Red).write_to envXterm ≠ "" ∧
    ({ Style.default with intense := true } : Style).write_to envXterm =
      "" :=
  ⟨c4_nondefault_writes.1 envXterm (Style.from_fg Color.Red) (by decide)
      (by decide) (by decide),
    c4_nondefault_writes.2 envXterm⟩

end Writecolor
